import Mathlib

/-
Shallow embedding of the battery-rental backend
(src/backend/src/routes/rentals.ts and the inventory, payments and
customers route files). Server-generated uuid ids are modelled as
naturals drawn from a fresh counter (0 plays the role of a missing or
empty id, matching JavaScript falsiness of the empty string); monetary
amounts are rationals; timestamps are integers counting milliseconds.
-/

namespace BatteryMgmt

/-- Battery lifecycle status, from the Prisma schema (enum Status). -/
inductive Status where
  | AVAILABLE
  | RENTED
  | MAINTENANCE
deriving DecidableEq, Repr

/-- Battery row (model Battery of schema.prisma). -/
structure Battery where
  id : Nat
  serialNumber : String
  price : ℚ
  status : Status
deriving DecidableEq, Repr

/-- Customer row (model Customer of schema.prisma). -/
structure Customer where
  id : Nat
  name : String
  phoneNumber : String
  address : String
  creditRating : ℤ
deriving DecidableEq, Repr

/-- Rental row (model Rental of schema.prisma); returnDate is null while
the rental is open. -/
structure Rental where
  id : Nat
  batteryId : Nat
  customerId : Nat
  rentDate : ℤ
  returnDate : Option ℤ
  rentalPrice : ℚ
  isPaid : Bool
deriving DecidableEq, Repr

/-- Payment row (model Payment of schema.prisma). -/
structure Payment where
  id : Nat
  rentalId : Nat
  customerId : Nat
  amount : ℚ
  paymentDate : ℤ
  paymentMethod : String
deriving DecidableEq, Repr

/-- Database state: the four relations plus the id generator. -/
structure St where
  batteries : List Battery
  customers : List Customer
  rentals : List Rental
  payments : List Payment
  nextId : Nat
deriving DecidableEq, Repr

/-- The empty database; ids start at 1 so that 0 means "missing". -/
def emptySt : St := ⟨[], [], [], [], 1⟩

/-- Error outcomes, one constructor per distinct early-return branch of
the route handlers. The spec's taxonomy classifies batteryNotAvailable,
alreadyReturned and customerMismatch as Conflict; the NotFound
constructors as NotFound; missingFields, duplicateSerial, duplicatePhone,
hasHistory and missingPaymentStatus as InvalidInput-style 400 responses;
serverError is the catch-all 500. -/
inductive Err where
  | missingFields
  | duplicateSerial
  | duplicatePhone
  | hasHistory
  | batteryNotFound
  | customerNotFound
  | rentalNotFound
  | batteryNotAvailable
  | alreadyReturned
  | customerMismatch
  | missingPaymentStatus
  | serverError
deriving DecidableEq, Repr

def findBattery (s : St) (i : Nat) : Option Battery :=
  s.batteries.find? (fun b => b.id == i)

def findCustomer (s : St) (i : Nat) : Option Customer :=
  s.customers.find? (fun c => c.id == i)

def findRental (s : St) (i : Nat) : Option Rental :=
  s.rentals.find? (fun r => r.id == i)

/-- Milliseconds in a day, the divisor 1000*60*60*24 in the credit
rating helper. -/
def msPerDay : ℤ := 1000 * 60 * 60 * 24

/-- JavaScript Math.round on the (non-negative) rationals produced by
the credit engine: floor of the argument plus one half. -/
def jsRound (q : ℚ) : ℤ := ⌊q + 1 / 2⌋

/-- Payments recorded against a given rental (the payments relation
included with each rental). -/
def rentalPayments (ps : List Payment) (rid : Nat) : List Payment :=
  ps.filter (fun p => p.rentalId == rid)

/-- Points one rental contributes in updateCustomerCreditRating
(rentals.ts lines 276-293): 2 if isPaid, else 1 if it has at least one
payment; plus 1 if returned and Math.floor of the duration in days is
at most 7. -/
def pointsFor (ps : List Payment) (r : Rental) : ℕ :=
  (if r.isPaid then 2
   else if (rentalPayments ps r.id).length > 0 then 1 else 0) +
  (match r.returnDate with
   | some ret => if (ret - r.rentDate).fdiv msPerDay ≤ 7 then 1 else 0
   | none => 0)

/-- Rentals of one customer, as queried by updateCustomerCreditRating. -/
def customerRentals (s : St) (cid : Nat) : List Rental :=
  s.rentals.filter (fun r => r.customerId == cid)

/-- Helper updateCustomerCreditRating (rentals.ts lines 262-307): load
the customer's rentals with payments, return unchanged when there are
none, otherwise sum the points, average over 3 per rental, scale to 0-5
with Math.round and persist on the customer row. A missing customer row
makes the map a no-op, matching the swallowed prisma error. -/
def updateCustomerCreditRating (s : St) (customerId : Nat) : St :=
  let rs := customerRentals s customerId
  if rs.length = 0 then s
  else
    let totalPoints : ℕ := (rs.map (pointsFor s.payments)).sum
    let avgPoints : ℚ := (totalPoints : ℚ) / ((rs.length : ℚ) * 3)
    let creditRating : ℤ := jsRound (avgPoints * 5)
    { s with customers := s.customers.map (fun c =>
        if c.id == customerId then { c with creditRating := creditRating } else c) }

/-- POST /api/inventory (inventory routes, lines 53-84): required-field
check, serial uniqueness, then insert with status AVAILABLE. -/
def createBattery (s : St) (serialNumber : String) (price : ℚ) :
    St × Except Err Battery :=
  if serialNumber = "" ∨ price = 0 then (s, .error .missingFields)
  else if (s.batteries.find? (fun b => b.serialNumber == serialNumber)).isSome then
    (s, .error .duplicateSerial)
  else
    let b : Battery := ⟨s.nextId, serialNumber, price, .AVAILABLE⟩
    ({ s with batteries := b :: s.batteries, nextId := s.nextId + 1 }, .ok b)

/-- PUT /api/inventory/:id (inventory routes, lines 87-126): each input
is optional; a field is written only when supplied (truthy in the
source, here modelled as some). The status field is written verbatim,
with no check against open rentals. -/
def updateBattery (s : St) (i : Nat) (serialNumber : Option String)
    (price : Option ℚ) (status : Option Status) : St × Except Err Battery :=
  match findBattery s i with
  | none => (s, .error .batteryNotFound)
  | some b =>
    let dup : Bool :=
      match serialNumber with
      | some sn => sn != b.serialNumber &&
          (s.batteries.find? (fun x => x.serialNumber == sn)).isSome
      | none => false
    if dup then
      (s, .error .duplicateSerial)
    else
      let b2 : Battery :=
        { b with serialNumber := serialNumber.getD b.serialNumber,
                 price := price.getD b.price,
                 status := status.getD b.status }
      ({ s with batteries := s.batteries.map (fun x => if x.id == i then b2 else x) },
       .ok b2)

/-- DELETE /api/inventory/:id (inventory routes, lines 129-161): refuse
when any rental references the battery, otherwise remove the row. -/
def deleteBattery (s : St) (i : Nat) : St × Except Err Unit :=
  match findBattery s i with
  | none => (s, .error .batteryNotFound)
  | some _ =>
    if s.rentals.any (fun r => r.batteryId == i) then (s, .error .hasHistory)
    else ({ s with batteries := s.batteries.filter (fun b => b.id != i) }, .ok ())

/-- POST /api/customers (customer routes, lines 76-108): required-field
check, phone uniqueness, insert with the default creditRating 3. -/
def createCustomer (s : St) (name phoneNumber : String) (address : Option String) :
    St × Except Err Customer :=
  if name = "" ∨ phoneNumber = "" then (s, .error .missingFields)
  else if (s.customers.find? (fun c => c.phoneNumber == phoneNumber)).isSome then
    (s, .error .duplicatePhone)
  else
    let c : Customer := ⟨s.nextId, name, phoneNumber, address.getD "", 3⟩
    ({ s with customers := c :: s.customers, nextId := s.nextId + 1 }, .ok c)

/-- PUT /api/customers/:id (customer routes, lines 111-151): optional
fields; creditRating, when supplied, is parseInt of the caller's value
and is written without any range check. -/
def updateCustomer (s : St) (i : Nat) (name phoneNumber address : Option String)
    (creditRating : Option ℤ) : St × Except Err Customer :=
  match findCustomer s i with
  | none => (s, .error .customerNotFound)
  | some c =>
    let dup : Bool :=
      match phoneNumber with
      | some pn => pn != c.phoneNumber &&
          (s.customers.find? (fun x => x.phoneNumber == pn)).isSome
      | none => false
    if dup then
      (s, .error .duplicatePhone)
    else
      let c2 : Customer :=
        { c with name := name.getD c.name,
                 phoneNumber := phoneNumber.getD c.phoneNumber,
                 address := address.getD c.address,
                 creditRating := creditRating.getD c.creditRating }
      ({ s with customers := s.customers.map (fun x => if x.id == i then c2 else x) },
       .ok c2)

/-- DELETE /api/customers/:id (customer routes, lines 154-187): refuse
when the customer has any rental or payment, otherwise remove. -/
def deleteCustomer (s : St) (i : Nat) : St × Except Err Unit :=
  match findCustomer s i with
  | none => (s, .error .customerNotFound)
  | some _ =>
    if s.rentals.any (fun r => r.customerId == i) ∨
        s.payments.any (fun p => p.customerId == i) then
      (s, .error .hasHistory)
    else ({ s with customers := s.customers.filter (fun c => c.id != i) }, .ok ())

/-- POST /api/rentals (rentals.ts lines 62-119): required-field check
(falsy inputs), battery lookup, availability check, customer lookup,
then in one transaction insert the rental (rentDate now, returnDate
null, isPaid defaulted to false) and set the battery status to RENTED. -/
def createRental (s : St) (batteryId customerId : Nat) (rentalPrice : ℚ)
    (isPaid : Option Bool) (now : ℤ) : St × Except Err Rental :=
  if batteryId = 0 ∨ customerId = 0 ∨ rentalPrice = 0 then (s, .error .missingFields)
  else
    match findBattery s batteryId with
    | none => (s, .error .batteryNotFound)
    | some b =>
      if b.status ≠ .AVAILABLE then (s, .error .batteryNotAvailable)
      else
        match findCustomer s customerId with
        | none => (s, .error .customerNotFound)
        | some _ =>
          let r : Rental :=
            ⟨s.nextId, batteryId, customerId, now, none, rentalPrice, isPaid.getD false⟩
          ({ s with rentals := r :: s.rentals,
                    batteries := s.batteries.map (fun x =>
                      if x.id == batteryId then { x with status := .RENTED } else x),
                    nextId := s.nextId + 1 }, .ok r)

/-- PUT /api/rentals/:id/return (rentals.ts lines 122-169): reject a
missing rental and a rental already returned; otherwise, in one
transaction, set returnDate (caller value or now) and the optional
isPaid override, and set the battery status to AVAILABLE; then run the
credit recomputation for the rental's customer. A rental whose battery
row is gone makes the prisma update throw, rolling the transaction
back. -/
def returnBattery (s : St) (i : Nat) (returnDate : Option ℤ) (isPaid : Option Bool)
    (now : ℤ) : St × Except Err Rental :=
  match findRental s i with
  | none => (s, .error .rentalNotFound)
  | some r =>
    if r.returnDate.isSome then (s, .error .alreadyReturned)
    else if (findBattery s r.batteryId).isNone then (s, .error .serverError)
    else
      let r2 : Rental :=
        { r with returnDate := some (returnDate.getD now),
                 isPaid := isPaid.getD r.isPaid }
      let s1 : St :=
        { s with rentals := s.rentals.map (fun x => if x.id == i then r2 else x),
                 batteries := s.batteries.map (fun b =>
                   if b.id == r.batteryId then { b with status := .AVAILABLE } else b) }
      (updateCustomerCreditRating s1 r.customerId, .ok r2)

/-- PUT /api/rentals/:id/payment (rentals.ts lines 172-203): require the
isPaid field and the rental, write the caller's boolean verbatim, then
run the credit recomputation for the rental's customer. No Payment row
is touched. -/
def updateRentalPaymentStatus (s : St) (i : Nat) (isPaid : Option Bool) :
    St × Except Err Rental :=
  match isPaid with
  | none => (s, .error .missingPaymentStatus)
  | some b =>
    match findRental s i with
    | none => (s, .error .rentalNotFound)
    | some r =>
      let r2 : Rental := { r with isPaid := b }
      let s1 : St :=
        { s with rentals := s.rentals.map (fun x => if x.id == i then r2 else x) }
      (updateCustomerCreditRating s1 r.customerId, .ok r2)

/-- Cumulative amount already paid against a rental (the reduce at
payments routes line 91). -/
def totalPaid (s : St) (rid : Nat) : ℚ :=
  ((rentalPayments s.payments rid).map (fun p => p.amount)).sum

/-- POST /api/payments (payments routes, lines 55-126): required-field
check by JavaScript truthiness (an amount of 0 is falsy, a negative
amount is truthy and passes), rental and customer lookups, customer
match check; then in one transaction insert the payment and, when the
cumulative total including the new amount reaches rentalPrice, set the
rental's isPaid to true; finally run the credit recomputation. -/
def createPayment (s : St) (rentalId customerId : Nat) (amount : ℚ)
    (paymentMethod : String) (now : ℤ) : St × Except Err Payment :=
  if rentalId = 0 ∨ customerId = 0 ∨ amount = 0 ∨ paymentMethod = "" then
    (s, .error .missingFields)
  else
    match findRental s rentalId with
    | none => (s, .error .rentalNotFound)
    | some r =>
      match findCustomer s customerId with
      | none => (s, .error .customerNotFound)
      | some _ =>
        if r.customerId ≠ customerId then (s, .error .customerMismatch)
        else
          let newTotalPaid : ℚ := totalPaid s rentalId + amount
          let p : Payment := ⟨s.nextId, rentalId, customerId, amount, now, paymentMethod⟩
          let s1 : St := { s with payments := p :: s.payments, nextId := s.nextId + 1 }
          let s2 : St :=
            if r.rentalPrice ≤ newTotalPaid then
              { s1 with rentals := s1.rentals.map (fun x =>
                  if x.id == rentalId then { x with isPaid := true } else x) }
            else s1
          (updateCustomerCreditRating s2 customerId, .ok p)

/-- Credit rating of a customer as stored in a state. -/
def creditRatingOf (s : St) (cid : Nat) : Option ℤ :=
  (findCustomer s cid).map (fun c => c.creditRating)

/-- Value the credit engine computes for a customer with at least one
rental: Math.round of the point average scaled to 0-5. -/
def creditFormula (s : St) (cid : Nat) : ℤ :=
  jsRound (((((customerRentals s cid).map (pointsFor s.payments)).sum : ℚ) /
    (((customerRentals s cid).length : ℚ) * 3)) * 5)

def c1cust : Customer := ⟨2, "A", "p", "", 3⟩

def c1rentalC : Rental := ⟨3, 1, 2, 0, some (5 * msPerDay), 100, true⟩

def c1demoC : St := ⟨[⟨1, "SN", 100, Status.AVAILABLE⟩], [c1cust], [c1rentalC], [], 4⟩

def c1rentalD : Rental := ⟨3, 1, 2, 0, some (10 * msPerDay), 100, false⟩

def c1demoD : St :=
  ⟨[⟨1, "SN", 100, Status.AVAILABLE⟩], [c1cust], [c1rentalD], [⟨4, 3, 2, 30, 1, "CASH"⟩], 5⟩

def c8demo : St := ⟨[], [⟨7, "B", "q", "", 3⟩], [], [], 8⟩

/-- Successful Create Rental outcome: a fresh rental row with null
returnDate is prepended and the battery is flipped to RENTED in the
same step. -/
def createRentalSuccessSpec (s : St) (bid cid : Nat) (price : ℚ) (ip : Option Bool)
    (now : ℤ) : Prop :=
  ∃ r, createRental s bid cid price ip now =
      ({ s with rentals := r :: s.rentals,
                batteries := s.batteries.map (fun x =>
                  if x.id == bid then { x with status := Status.RENTED } else x),
                nextId := s.nextId + 1 }, .ok r) ∧
    r.returnDate = none ∧ r.batteryId = bid ∧ r.customerId = cid

def c3demo : St := ⟨[⟨1, "SN", 50, Status.AVAILABLE⟩], [⟨2, "A", "p", "", 3⟩], [], [], 3⟩

def c6demo : St :=
  ⟨[⟨1, "SN", 50, Status.AVAILABLE⟩], [⟨2, "A", "p", "", 3⟩],
    [⟨3, 1, 2, 0, some 5, 50, true⟩], [], 4⟩

def c10demo : St :=
  ⟨[⟨1, "SN", 50, Status.RENTED⟩], [⟨2, "A", "p", "", 3⟩],
    [⟨3, 1, 2, 0, none, 50, true⟩], [⟨4, 3, 2, 50, 1, "CASH"⟩], 5⟩

def c4rental : Rental := ⟨3, 1, 2, 0, none, 100, false⟩

def c4demo : St :=
  ⟨[⟨1, "SN", 100, Status.RENTED⟩], [⟨2, "A", "p", "", 3⟩], [c4rental], [], 4⟩

def c5demo : St :=
  ⟨[⟨1, "SN", 100, Status.RENTED⟩], [⟨2, "A", "p", "", 3⟩, ⟨9, "B", "q", "", 3⟩],
    [⟨3, 1, 2, 0, none, 100, false⟩], [], 4⟩

/-- Invariant of claim C2: a battery is RENTED exactly when some rental
for it is still open (returnDate null). -/
def rentedIffOpen (s : St) : Prop :=
  ∀ b ∈ s.batteries, (b.status = Status.RENTED ↔
    ∃ r ∈ s.rentals, r.batteryId = b.id ∧ r.returnDate = none)

instance decRentedIffOpen (s : St) : Decidable (rentedIffOpen s) := by
  unfold rentedIffOpen
  exact inferInstance

/-- Strengthened inductive invariant: id freshness, uniqueness of rental
ids, at most one open rental per battery, and the RENTED-iff-open
property itself. -/
def Inv (s : St) : Prop :=
  (∀ b ∈ s.batteries, b.id < s.nextId) ∧
  (∀ r ∈ s.rentals, r.id < s.nextId ∧ r.batteryId < s.nextId) ∧
  (∀ r1 ∈ s.rentals, ∀ r2 ∈ s.rentals, r1.id = r2.id → r1 = r2) ∧
  (∀ r1 ∈ s.rentals, ∀ r2 ∈ s.rentals, r1.returnDate = none →
    r2.returnDate = none → r1.batteryId = r2.batteryId → r1 = r2) ∧
  rentedIffOpen s

/-- States reachable from the empty database by the exposed operations,
with arbitrary arguments (failed calls leave the state unchanged). -/
inductive Reach : St → Prop where
  | init : Reach emptySt
  | createBatteryStep (s : St) (sn : String) (p : ℚ) :
      Reach s → Reach (createBattery s sn p).1
  | updateBatteryStep (s : St) (i : Nat) (sn : Option String) (p : Option ℚ)
      (st : Option Status) : Reach s → Reach (updateBattery s i sn p st).1
  | deleteBatteryStep (s : St) (i : Nat) : Reach s → Reach (deleteBattery s i).1
  | createCustomerStep (s : St) (n pn : String) (a : Option String) :
      Reach s → Reach (createCustomer s n pn a).1
  | updateCustomerStep (s : St) (i : Nat) (n pn a : Option String) (cr : Option ℤ) :
      Reach s → Reach (updateCustomer s i n pn a cr).1
  | deleteCustomerStep (s : St) (i : Nat) : Reach s → Reach (deleteCustomer s i).1
  | createRentalStep (s : St) (bid cid : Nat) (price : ℚ) (ip : Option Bool)
      (now : ℤ) : Reach s → Reach (createRental s bid cid price ip now).1
  | returnBatteryStep (s : St) (i : Nat) (rd : Option ℤ) (ip : Option Bool)
      (now : ℤ) : Reach s → Reach (returnBattery s i rd ip now).1
  | updateRentalPaymentStep (s : St) (i : Nat) (ip : Option Bool) :
      Reach s → Reach (updateRentalPaymentStatus s i ip).1
  | createPaymentStep (s : St) (rid cid : Nat) (amt : ℚ) (pm : String) (now : ℤ) :
      Reach s → Reach (createPayment s rid cid amt pm now).1

/-- Reachability restricted to battery updates that do not carry a
status field; every other operation is unrestricted. -/
inductive ReachSafe : St → Prop where
  | init : ReachSafe emptySt
  | createBatteryStep (s : St) (sn : String) (p : ℚ) :
      ReachSafe s → ReachSafe (createBattery s sn p).1
  | updateBatteryStep (s : St) (i : Nat) (sn : Option String) (p : Option ℚ) :
      ReachSafe s → ReachSafe (updateBattery s i sn p none).1
  | deleteBatteryStep (s : St) (i : Nat) : ReachSafe s → ReachSafe (deleteBattery s i).1
  | createCustomerStep (s : St) (n pn : String) (a : Option String) :
      ReachSafe s → ReachSafe (createCustomer s n pn a).1
  | updateCustomerStep (s : St) (i : Nat) (n pn a : Option String) (cr : Option ℤ) :
      ReachSafe s → ReachSafe (updateCustomer s i n pn a cr).1
  | deleteCustomerStep (s : St) (i : Nat) : ReachSafe s → ReachSafe (deleteCustomer s i).1
  | createRentalStep (s : St) (bid cid : Nat) (price : ℚ) (ip : Option Bool)
      (now : ℤ) : ReachSafe s → ReachSafe (createRental s bid cid price ip now).1
  | returnBatteryStep (s : St) (i : Nat) (rd : Option ℤ) (ip : Option Bool)
      (now : ℤ) : ReachSafe s → ReachSafe (returnBattery s i rd ip now).1
  | updateRentalPaymentStep (s : St) (i : Nat) (ip : Option Bool) :
      ReachSafe s → ReachSafe (updateRentalPaymentStatus s i ip).1
  | createPaymentStep (s : St) (rid cid : Nat) (amt : ℚ) (pm : String) (now : ℤ) :
      ReachSafe s → ReachSafe (createPayment s rid cid amt pm now).1

def c9s1 : St := (createCustomer emptySt "A" "p" none).1

def c9s2 : St := (updateCustomer c9s1 1 none none none (some 99)).1

def c2bad1 : St := (createBattery emptySt "SN" 10).1

def c2bad2 : St := (updateBattery c2bad1 1 none none (some Status.RENTED)).1

def c2w2 : St := (createCustomer c2bad1 "A" "p" none).1

def c2w3 : St := (createRental c2w2 1 2 10 none 0).1

@[simp]
theorem updateCredit_batteries (s : St) (cid : Nat) :
    (updateCustomerCreditRating s cid).batteries = s.batteries := by
  unfold updateCustomerCreditRating
  by_cases h : (customerRentals s cid).length = 0 <;> simp [h]

@[simp]
theorem updateCredit_rentals (s : St) (cid : Nat) :
    (updateCustomerCreditRating s cid).rentals = s.rentals := by
  unfold updateCustomerCreditRating
  by_cases h : (customerRentals s cid).length = 0 <;> simp [h]

@[simp]
theorem updateCredit_payments (s : St) (cid : Nat) :
    (updateCustomerCreditRating s cid).payments = s.payments := by
  unfold updateCustomerCreditRating
  by_cases h : (customerRentals s cid).length = 0 <;> simp [h]

@[simp]
theorem updateCredit_nextId (s : St) (cid : Nat) :
    (updateCustomerCreditRating s cid).nextId = s.nextId := by
  unfold updateCustomerCreditRating
  by_cases h : (customerRentals s cid).length = 0 <;> simp [h]

theorem find?_map_of_pred {α : Type} (f : α → α) (p : α → Bool)
    (hf : ∀ a, p (f a) = p a) (l : List α) :
    (l.map f).find? p = (l.find? p).map f := by
  induction l with
  | nil => rfl
  | cons a t ih =>
    by_cases h : p a = true
    · simp [List.find?_cons, hf a, h]
    · simp only [Bool.not_eq_true] at h
      simp [List.find?_cons, hf a, h, ih]

theorem findCustomer_updateCredit (s : St) (cid : Nat) (c : Customer)
    (hc : findCustomer s cid = some c) (hne : (customerRentals s cid).length ≠ 0) :
    findCustomer (updateCustomerCreditRating s cid) cid =
      some { c with creditRating := creditFormula s cid } := by
  unfold findCustomer at hc ⊢
  have hcid : (c.id == cid) = true := by
    have h0 := List.find?_some hc
    simpa using h0
  unfold updateCustomerCreditRating
  rw [if_neg hne]
  dsimp only
  rw [find?_map_of_pred _ _ (fun a => by by_cases h : (a.id == cid) = true <;> simp [h]) _]
  rw [hc]
  simp [hcid, creditFormula]
  exact fun h => absurd (by simpa using hcid) h

theorem updateCredit_eq (s : St) (cid : Nat)
    (hne : (customerRentals s cid).length ≠ 0) :
    updateCustomerCreditRating s cid =
      { s with customers := s.customers.map (fun c =>
          if c.id == cid then { c with creditRating := creditFormula s cid } else c) } := by
  unfold updateCustomerCreditRating creditFormula
  rw [if_neg hne]

theorem map_credit_idem (l : List Customer) (cid : Nat) (k : ℤ) :
    (l.map (fun c => if c.id == cid then { c with creditRating := k } else c)).map
      (fun c => if c.id == cid then { c with creditRating := k } else c) =
    l.map (fun c => if c.id == cid then { c with creditRating := k } else c) := by
  rw [List.map_map]
  congr 1
  funext c
  by_cases h : (c.id == cid) = true
  · simp [Function.comp, h]
  · simp [Function.comp, h]

/-- Claim C1: the credit engine, run for a customer with exactly one
rental, yields rating 5 when that rental is paid and returned within 7
whole days (3 of 3 points), and rating 2 when it is unpaid, has at
least one payment and was returned after 10 days (1 of 3 points,
round of 5 thirds). -/
theorem creditEngine_singleRental_scenarios (s : St) (cid : Nat) (r : Rental)
    (c : Customer) (hc : findCustomer s cid = some c)
    (hr : customerRentals s cid = [r]) :
    (∀ ret, r.isPaid = true → r.returnDate = some ret →
      (ret - r.rentDate).fdiv msPerDay ≤ 7 →
      creditRatingOf (updateCustomerCreditRating s cid) cid = some 5) ∧
    (∀ ret, r.isPaid = false → (rentalPayments s.payments r.id).length > 0 →
      r.returnDate = some ret → 10 ≤ (ret - r.rentDate).fdiv msPerDay →
      creditRatingOf (updateCustomerCreditRating s cid) cid = some 2) := by
  have hne : (customerRentals s cid).length ≠ 0 := by rw [hr]; simp
  have hfind := findCustomer_updateCredit s cid c hc hne
  constructor
  · intro ret hpaid hret hle
    have hpts : pointsFor s.payments r = 3 := by
      simp [pointsFor, hpaid, hret, hle]
    have hform : creditFormula s cid = 5 := by
      unfold creditFormula
      rw [hr]
      simp only [List.map_cons, List.map_nil, List.sum_cons, List.sum_nil,
        List.length_cons, List.length_nil, hpts]
      norm_num [jsRound]
    rw [creditRatingOf, hfind, hform]
    rfl
  · intro ret hpaid hpay hret h10
    have hnle : ¬ (ret - r.rentDate).fdiv msPerDay ≤ 7 := by omega
    have hpts : pointsFor s.payments r = 1 := by
      simp [pointsFor, hpaid, hpay, hret, hnle]
    have hform : creditFormula s cid = 2 := by
      unfold creditFormula
      rw [hr]
      simp only [List.map_cons, List.map_nil, List.sum_cons, List.sum_nil,
        List.length_cons, List.length_nil, hpts]
      norm_num [jsRound]
    rw [creditRatingOf, hfind, hform]
    rfl
theorem creditEngine_singleRental_scenarios_witness :
    findCustomer c1demoC 2 = some c1cust ∧
    customerRentals c1demoC 2 = [c1rentalC] ∧
    creditRatingOf (updateCustomerCreditRating c1demoC 2) 2 = some 5 ∧
    creditRatingOf (updateCustomerCreditRating c1demoD 2) 2 = some 2 := by
  refine ⟨rfl, rfl, ?_, ?_⟩
  · exact (creditEngine_singleRental_scenarios c1demoC 2 c1rentalC c1cust rfl rfl).1
      (5 * msPerDay) rfl rfl (by decide)
  · exact (creditEngine_singleRental_scenarios c1demoD 2 c1rentalD c1cust rfl rfl).2
      (10 * msPerDay) rfl (by decide) rfl (by decide)

/-- Claim C7: the credit engine recomputation is idempotent; with the
rentals and payments fixed, running it twice yields the same state,
hence the same creditRating, as running it once. -/
theorem creditEngine_idempotent (s : St) (cid : Nat) :
    updateCustomerCreditRating (updateCustomerCreditRating s cid) cid =
      updateCustomerCreditRating s cid := by
  by_cases h : (customerRentals s cid).length = 0
  · have h1 : updateCustomerCreditRating s cid = s := by
      unfold updateCustomerCreditRating
      simp [h]
    rw [h1]
    exact h1
  · have hrent : customerRentals (updateCustomerCreditRating s cid) cid =
        customerRentals s cid := by
      unfold customerRentals
      rw [updateCredit_rentals]
    have hne2 : (customerRentals (updateCustomerCreditRating s cid) cid).length ≠ 0 := by
      rw [hrent]; exact h
    have hform : creditFormula (updateCustomerCreditRating s cid) cid =
        creditFormula s cid := by
      unfold creditFormula
      rw [hrent, updateCredit_payments]
    have hu := updateCredit_eq s cid h
    have hu2 := updateCredit_eq (updateCustomerCreditRating s cid) cid hne2
    rw [hu2, hform]
    conv_lhs => rw [hu]
    conv_rhs => rw [hu]
    dsimp only
    rw [map_credit_idem]

/-- Claim C8: for a customer with zero rentals the credit engine run is
a no-op; the whole state, in particular every customer field, is
unchanged. -/
theorem creditEngine_zeroRentals_noop (s : St) (cid : Nat)
    (h : customerRentals s cid = []) :
    updateCustomerCreditRating s cid = s := by
  unfold updateCustomerCreditRating
  simp [h]
theorem creditEngine_zeroRentals_noop_witness :
    customerRentals c8demo 7 = [] ∧ updateCustomerCreditRating c8demo 7 = c8demo :=
  ⟨rfl, creditEngine_zeroRentals_noop c8demo 7 rfl⟩

/-- Claim C3: Create Rental fails with NotFound when the battery is
missing, with the not-available error (the spec taxonomy's Conflict)
when the battery exists but is not AVAILABLE, and with NotFound when
the customer is missing; every failure leaves the state untouched; on
success the rental row (returnDate null) and the RENTED battery status
are written atomically. -/
theorem createRental_spec (s : St) (bid cid : Nat) (price : ℚ) (ip : Option Bool)
    (now : ℤ) (hb : bid ≠ 0) (hc : cid ≠ 0) (hp : price ≠ 0) :
    (findBattery s bid = none →
      createRental s bid cid price ip now = (s, .error .batteryNotFound)) ∧
    (∀ b, findBattery s bid = some b → b.status ≠ .AVAILABLE →
      createRental s bid cid price ip now = (s, .error .batteryNotAvailable)) ∧
    (∀ b, findBattery s bid = some b → b.status = .AVAILABLE →
      findCustomer s cid = none →
      createRental s bid cid price ip now = (s, .error .customerNotFound)) ∧
    (∀ b, findBattery s bid = some b → b.status = .AVAILABLE →
      (findCustomer s cid).isSome →
      createRentalSuccessSpec s bid cid price ip now) := by
  have hvalid : ¬ (bid = 0 ∨ cid = 0 ∨ price = 0) := by
    push_neg
    exact ⟨hb, hc, hp⟩
  refine ⟨?_, ?_, ?_, ?_⟩
  · intro hf
    unfold createRental
    rw [if_neg hvalid, hf]
  · intro b hf hst
    unfold createRental
    rw [if_neg hvalid, hf]
    dsimp only
    rw [if_pos hst]
  · intro b hf hst hfc
    unfold createRental
    rw [if_neg hvalid, hf]
    dsimp only
    rw [if_neg (by simp [hst]), hfc]
  · intro b hf hst hfc
    cases hfc2 : findCustomer s cid with
    | none => rw [hfc2] at hfc; simp at hfc
    | some c =>
      refine ⟨⟨s.nextId, bid, cid, now, none, price, ip.getD false⟩, ?_, rfl, rfl, rfl⟩
      unfold createRental
      rw [if_neg hvalid, hf]
      dsimp only
      rw [if_neg (by simp [hst]), hfc2]
theorem createRental_spec_witness :
    (1 : Nat) ≠ 0 ∧ (2 : Nat) ≠ 0 ∧ (50 : ℚ) ≠ 0 ∧
    findBattery c3demo 1 = some ⟨1, "SN", 50, Status.AVAILABLE⟩ ∧
    createRentalSuccessSpec c3demo 1 2 50 none 0 := by
  refine ⟨by decide, by decide, by decide, rfl, ?_⟩
  exact (createRental_spec c3demo 1 2 50 none 0 (by decide) (by decide) (by decide)).2.2.2
    ⟨1, "SN", 50, Status.AVAILABLE⟩ rfl rfl (by rfl)

/-- Claim C6: Return Battery on a rental whose returnDate is already
set fails with the already-returned error (the spec taxonomy's
Conflict) and the whole state, in particular the rental's fields and
the battery's status, is exactly as before the call. -/
theorem returnBattery_alreadyReturned (s : St) (i : Nat) (rd : Option ℤ)
    (ip : Option Bool) (now : ℤ) (r : Rental) (hr : findRental s i = some r)
    (hret : r.returnDate.isSome) :
    returnBattery s i rd ip now = (s, .error .alreadyReturned) := by
  unfold returnBattery
  rw [hr]
  dsimp only
  rw [if_pos hret]
theorem returnBattery_alreadyReturned_witness :
    findRental c6demo 3 = some ⟨3, 1, 2, 0, some 5, 50, true⟩ ∧
    returnBattery c6demo 3 none none 9 = (c6demo, .error .alreadyReturned) :=
  ⟨rfl, returnBattery_alreadyReturned c6demo 3 none none 9
    ⟨3, 1, 2, 0, some 5, 50, true⟩ rfl rfl⟩

/-- Claim C10: the rental payment-status route writes exactly the
caller-supplied boolean onto an existing rental, even false on a rental
whose payments cover its price, inserts no Payment row, and then runs
the credit recomputation for the rental's customer. -/
theorem updateRentalPayment_setsCallerValue (s : St) (i : Nat) (b : Bool)
    (r : Rental) (hr : findRental s i = some r) :
    updateRentalPaymentStatus s i (some b) =
      (updateCustomerCreditRating
        { s with rentals := s.rentals.map (fun x =>
            if x.id == i then { r with isPaid := b } else x) } r.customerId,
       .ok { r with isPaid := b }) ∧
    (updateRentalPaymentStatus s i (some b)).1.payments = s.payments ∧
    findRental (updateRentalPaymentStatus s i (some b)).1 i =
      some { r with isPaid := b } := by
  have hrid : (r.id == i) = true := by
    unfold findRental at hr
    simpa using List.find?_some hr
  have hmain : updateRentalPaymentStatus s i (some b) =
      (updateCustomerCreditRating
        { s with rentals := s.rentals.map (fun x =>
            if x.id == i then { r with isPaid := b } else x) } r.customerId,
       .ok { r with isPaid := b }) := by
    unfold updateRentalPaymentStatus
    rw [hr]
  refine ⟨hmain, ?_, ?_⟩
  · rw [hmain]
    dsimp only
    rw [updateCredit_payments]
  · rw [hmain]
    dsimp only
    unfold findRental
    rw [updateCredit_rentals]
    dsimp only
    rw [find?_map_of_pred _ _ (fun x => by
      by_cases h : (x.id == i) = true
      · simp [h, hrid]
      · simp [h]) _]
    unfold findRental at hr
    rw [hr]
    simp [hrid]
    exact fun h => absurd (by simpa using hrid) h
theorem updateRentalPayment_setsCallerValue_witness :
    findRental c10demo 3 = some ⟨3, 1, 2, 0, none, 50, true⟩ ∧
    (updateRentalPaymentStatus c10demo 3 (some false)).1.payments = c10demo.payments ∧
    findRental (updateRentalPaymentStatus c10demo 3 (some false)).1 3 =
      some ⟨3, 1, 2, 0, none, 50, false⟩ := by
  have h := updateRentalPayment_setsCallerValue c10demo 3 false
    ⟨3, 1, 2, 0, none, 50, true⟩ rfl
  exact ⟨rfl, h.2.1, h.2.2⟩

/-- Claim C4: a successful Record Payment leaves the rental's isPaid
exactly at oldIsPaid OR (cumulative payments including the new amount
reach rentalPrice): true once covered, never reset to false by this
path, still true after further payments on a fully paid rental, and
the call succeeds regardless of the current isPaid or totals. -/
theorem recordPayment_isPaid_spec (s : St) (rid cid : Nat) (amt : ℚ) (pm : String)
    (now : ℤ) (r : Rental)
    (h1 : rid ≠ 0) (h2 : cid ≠ 0) (h3 : amt ≠ 0) (h4 : pm ≠ "")
    (hr : findRental s rid = some r)
    (hc : (findCustomer s cid).isSome)
    (hm : r.customerId = cid) :
    ∃ p, (createPayment s rid cid amt pm now).2 = .ok p ∧
      findRental (createPayment s rid cid amt pm now).1 rid =
        some { r with isPaid :=
          r.isPaid || decide (r.rentalPrice ≤ totalPaid s rid + amt) } := by
  have hvalid : ¬ (rid = 0 ∨ cid = 0 ∨ amt = 0 ∨ pm = "") := by
    push_neg
    exact ⟨h1, h2, h3, h4⟩
  have hrid : (r.id == rid) = true := by
    unfold findRental at hr
    simpa using List.find?_some hr
  cases hfc : findCustomer s cid with
  | none => rw [hfc] at hc; simp at hc
  | some c =>
    have hmain : createPayment s rid cid amt pm now =
        (updateCustomerCreditRating
          (if r.rentalPrice ≤ totalPaid s rid + amt then
            { s with payments := ⟨s.nextId, rid, cid, amt, now, pm⟩ :: s.payments,
                     nextId := s.nextId + 1,
                     rentals := s.rentals.map (fun x =>
                       if x.id == rid then { x with isPaid := true } else x) }
          else
            { s with payments := ⟨s.nextId, rid, cid, amt, now, pm⟩ :: s.payments,
                     nextId := s.nextId + 1 }) cid,
         .ok ⟨s.nextId, rid, cid, amt, now, pm⟩) := by
      unfold createPayment
      rw [if_neg hvalid, hr]
      dsimp only
      rw [hfc]
      dsimp only
      rw [if_neg (by simp [hm])]
    refine ⟨⟨s.nextId, rid, cid, amt, now, pm⟩, by rw [hmain], ?_⟩
    rw [hmain]
    dsimp only
    unfold findRental
    rw [updateCredit_rentals]
    by_cases hge : r.rentalPrice ≤ totalPaid s rid + amt
    · rw [if_pos hge]
      dsimp only
      rw [find?_map_of_pred _ _ (fun x => by
        by_cases h : (x.id == rid) = true
        · simp [h]
        · simp [h]) _]
      unfold findRental at hr
      rw [hr]
      simp [hrid, hge]
      exact fun h => absurd (by simpa using hrid) h
    · rw [if_neg hge]
      dsimp only
      unfold findRental at hr
      rw [hr]
      simp [hge]
theorem recordPayment_isPaid_spec_witness :
    findRental c4demo 3 = some c4rental ∧
    (∃ p, (createPayment c4demo 3 2 100 "CASH" 7).2 = .ok p ∧
      findRental (createPayment c4demo 3 2 100 "CASH" 7).1 3 =
        some { c4rental with isPaid :=
          c4rental.isPaid || decide (c4rental.rentalPrice ≤ totalPaid c4demo 3 + 100) }) := by
  refine ⟨rfl, ?_⟩
  exact recordPayment_isPaid_spec c4demo 3 2 100 "CASH" 7
    c4rental (by decide) (by decide) (by decide)
    (by decide) rfl (by rfl) rfl

/-- Claim C5 counterexample: the required-field validation only rejects
a falsy amount, so the negative amount -1 (which the claim says must
fail with InvalidInput) is accepted: the call succeeds and a Payment
row is inserted. -/
theorem recordPayment_negativeAmount_counterexample :
    (-1 : ℚ) ≤ 0 ∧
    (createPayment c5demo 3 2 (-1) "CASH" 7).2.isOk = true ∧
    (createPayment c5demo 3 2 (-1) "CASH" 7).1.payments.length = 1 := by
  refine ⟨by norm_num, ?_, ?_⟩
  · norm_num [createPayment, findRental, findCustomer, totalPaid, rentalPayments,
      updateCustomerCreditRating, customerRentals, pointsFor, jsRound,
      Except.isOk, Except.toBool, c5demo]
    decide
  · norm_num [createPayment, findRental, findCustomer, totalPaid, rentalPayments,
      updateCustomerCreditRating, customerRentals, pointsFor, jsRound, c5demo]
    decide

/-- Claim C5 as amended: Record Payment fails with the customer-mismatch
error (the spec taxonomy's Conflict) when the supplied customerId
differs from the rental's, and fails the required-field validation
(InvalidInput) when the amount is zero; but a negative amount passes
the falsy check and is accepted. In every failure case the state, and
so the payments table and the rental, is unchanged. -/
theorem recordPayment_failure_spec :
    (∀ s rid cid pm now,
      createPayment s rid cid 0 pm now = (s, .error .missingFields)) ∧
    (∀ s rid cid amt pm now r, rid ≠ 0 → cid ≠ 0 → amt ≠ 0 → pm ≠ "" →
      findRental s rid = some r → (findCustomer s cid).isSome →
      r.customerId ≠ cid →
      createPayment s rid cid amt pm now = (s, .error .customerMismatch)) := by
  constructor
  · intro s rid cid pm now
    unfold createPayment
    rw [if_pos (by simp)]
  · intro s rid cid amt pm now r h1 h2 h3 h4 hr hc hm
    have hvalid : ¬ (rid = 0 ∨ cid = 0 ∨ amt = 0 ∨ pm = "") := by
      push_neg
      exact ⟨h1, h2, h3, h4⟩
    cases hfc : findCustomer s cid with
    | none => rw [hfc] at hc; simp at hc
    | some c =>
      unfold createPayment
      rw [if_neg hvalid, hr]
      dsimp only
      rw [hfc]
      dsimp only
      rw [if_pos hm]

theorem recordPayment_failure_spec_witness :
    createPayment c5demo 3 2 0 "CASH" 7 = (c5demo, .error .missingFields) ∧
    (findRental c5demo 3 = some ⟨3, 1, 2, 0, none, 100, false⟩ ∧
      createPayment c5demo 3 9 35 "CASH" 7 = (c5demo, .error .customerMismatch)) := by
  refine ⟨recordPayment_failure_spec.1 c5demo 3 2 "CASH" 7, rfl, ?_⟩
  exact recordPayment_failure_spec.2 c5demo 3 9 35 "CASH" 7
    ⟨3, 1, 2, 0, none, 100, false⟩ (by decide) (by decide) (by decide)
    (by decide) rfl (by rfl) (by decide)

theorem pointsFor_le_three (ps : List Payment) (r : Rental) : pointsFor ps r ≤ 3 := by
  obtain ⟨a, b, c, d, ret, e, paid⟩ := r
  rcases ret with _ | ret <;> rcases paid <;>
      simp only [pointsFor] <;> split_ifs <;> omega

theorem sum_pointsFor_le (ps : List Payment) (l : List Rental) :
    (l.map (pointsFor ps)).sum ≤ 3 * l.length := by
  induction l with
  | nil => simp
  | cons a t ih =>
    simp only [List.map_cons, List.sum_cons, List.length_cons]
    have := pointsFor_le_three ps a
    omega

theorem creditFormula_bounds (s : St) (cid : Nat)
    (hne : (customerRentals s cid).length ≠ 0) :
    0 ≤ creditFormula s cid ∧ creditFormula s cid ≤ 5 := by
  have ht : ((customerRentals s cid).map (pointsFor s.payments)).sum ≤
      3 * (customerRentals s cid).length := sum_pointsFor_le _ _
  have hn : 0 < (customerRentals s cid).length := Nat.pos_of_ne_zero hne
  unfold creditFormula
  set t : ℕ := ((customerRentals s cid).map (pointsFor s.payments)).sum with hts
  set n : ℕ := (customerRentals s cid).length with hns
  have hden : (0 : ℚ) < (n : ℚ) * 3 := by positivity
  have hq0 : (0 : ℚ) ≤ (t : ℚ) / ((n : ℚ) * 3) * 5 := by positivity
  have htq : (t : ℚ) ≤ (n : ℚ) * 3 := by
    have : (t : ℚ) ≤ ((3 * n : ℕ) : ℚ) := by exact_mod_cast ht
    push_cast at this
    linarith
  have hdiv : (t : ℚ) / ((n : ℚ) * 3) ≤ 1 := (div_le_one hden).mpr htq
  have hq5 : (t : ℚ) / ((n : ℚ) * 3) * 5 ≤ 5 := by nlinarith
  constructor
  · unfold jsRound
    apply Int.le_floor.mpr
    push_cast
    linarith
  · unfold jsRound
    have hlt : ((t : ℚ) / ((n : ℚ) * 3) * 5 + 1 / 2 : ℚ) < 6 := by linarith
    have := Int.floor_lt.mpr (by exact_mod_cast hlt :
      ((t : ℚ) / ((n : ℚ) * 3) * 5 + 1 / 2 : ℚ) < ((6 : ℤ) : ℚ))
    omega

/-- Claim C9 as amended: a customer is created with creditRating 3 and
the credit engine always writes a rating inside the integer range 0-5;
but the customer-update route does set creditRating to the caller's
parseInt value verbatim, with no range check, so the rating is not
modified only by the recomputation and can leave the range. -/
theorem creditRating_sources_spec :
    (∀ s name phone addr c, (createCustomer s name phone addr).2 = .ok c →
      c.creditRating = 3) ∧
    (∀ s cid, (customerRentals s cid).length ≠ 0 →
      ∀ c, findCustomer s cid = some c →
      findCustomer (updateCustomerCreditRating s cid) cid =
        some { c with creditRating := creditFormula s cid } ∧
      0 ≤ creditFormula s cid ∧ creditFormula s cid ≤ 5) ∧
    (∀ s i k c2, (updateCustomer s i none none none (some k)).2 = .ok c2 →
      c2.creditRating = k) := by
  refine ⟨?_, ?_, ?_⟩
  · intro s name phone addr c h
    unfold createCustomer at h
    split_ifs at h
    simp only at h
    injection h with h2
    rw [← h2]
  · intro s cid hne c hc
    exact ⟨findCustomer_updateCredit s cid c hc hne, creditFormula_bounds s cid hne⟩
  · intro s i k c2 h
    unfold updateCustomer at h
    cases hfc : findCustomer s i with
    | none => rw [hfc] at h; simp at h
    | some c0 =>
      rw [hfc] at h
      simp only at h
      rw [if_neg (by decide)] at h
      dsimp only at h
      injection h with h2
      rw [← h2]
      rfl

theorem creditRating_sources_spec_witness :
    (createCustomer emptySt "A" "p" none).2 = .ok ⟨1, "A", "p", "", 3⟩ ∧
    (⟨1, "A", "p", "", 3⟩ : Customer).creditRating = 3 ∧
    (updateCustomer c9s1 1 none none none (some 4)).2 = .ok ⟨1, "A", "p", "", 4⟩ ∧
    (⟨1, "A", "p", "", 4⟩ : Customer).creditRating = 4 := by
  refine ⟨rfl, ?_, rfl, ?_⟩
  · exact creditRating_sources_spec.1 emptySt "A" "p" none ⟨1, "A", "p", "", 3⟩ rfl
  · exact creditRating_sources_spec.2.2 c9s1 1 4 ⟨1, "A", "p", "", 4⟩ rfl

/-- Claim C9 counterexample: from the empty database, create a customer
(rating 3) and call the customer-update route with creditRating 99;
the stored rating becomes 99, which an exposed non-engine operation
supplied and which lies outside the range 0-5. -/
theorem creditRating_callerSet_counterexample :
    Reach c9s2 ∧ creditRatingOf c9s2 1 = some 99 ∧ ¬ (99 : ℤ) ≤ 5 := by
  refine ⟨?_, by decide, by decide⟩
  exact Reach.updateCustomerStep c9s1 1 none none none (some 99)
    (Reach.createCustomerStep emptySt "A" "p" none Reach.init)

theorem findBattery_mem {s : St} {i : Nat} {b : Battery}
    (h : findBattery s i = some b) : b ∈ s.batteries ∧ b.id = i := by
  unfold findBattery at h
  exact ⟨List.mem_of_find?_eq_some h, by simpa using List.find?_some h⟩

theorem findRental_mem {s : St} {i : Nat} {r : Rental}
    (h : findRental s i = some r) : r ∈ s.rentals ∧ r.id = i := by
  unfold findRental at h
  exact ⟨List.mem_of_find?_eq_some h, by simpa using List.find?_some h⟩

theorem inv_of_eq {s s' : St} (h : Inv s) (hb : s'.batteries = s.batteries)
    (hr : s'.rentals = s.rentals) (hn : s.nextId ≤ s'.nextId) : Inv s' := by
  obtain ⟨h1, h2, h3, h4, h5⟩ := h
  refine ⟨?_, ?_, ?_, ?_, ?_⟩
  · rw [hb]
    intro b hm
    exact lt_of_lt_of_le (h1 b hm) hn
  · rw [hr]
    intro r hm
    exact ⟨lt_of_lt_of_le ((h2 r hm).1) hn, lt_of_lt_of_le ((h2 r hm).2) hn⟩
  · rw [hr]
    exact h3
  · rw [hr]
    exact h4
  · unfold rentedIffOpen at h5 ⊢
    rw [hb, hr]
    exact h5

theorem inv_of_isPaidMap {s s' : St} {f : Rental → Rental} (h : Inv s)
    (hb : s'.batteries = s.batteries)
    (hr : s'.rentals = s.rentals.map f)
    (hn : s.nextId ≤ s'.nextId)
    (hf : ∀ r ∈ s.rentals, (f r).id = r.id ∧ (f r).batteryId = r.batteryId ∧
      (f r).returnDate = r.returnDate) : Inv s' := by
  obtain ⟨h1, h2, h3, h4, h5⟩ := h
  refine ⟨?_, ?_, ?_, ?_, ?_⟩
  · rw [hb]
    intro b hm
    exact lt_of_lt_of_le (h1 b hm) hn
  · rw [hr]
    intro r' hm
    obtain ⟨r, hrm, rfl⟩ := List.mem_map.mp hm
    rw [(hf r hrm).1, (hf r hrm).2.1]
    exact ⟨lt_of_lt_of_le ((h2 r hrm).1) hn, lt_of_lt_of_le ((h2 r hrm).2) hn⟩
  · rw [hr]
    intro r1 hm1 r2 hm2 heq
    obtain ⟨x1, hx1, rfl⟩ := List.mem_map.mp hm1
    obtain ⟨x2, hx2, rfl⟩ := List.mem_map.mp hm2
    rw [(hf x1 hx1).1, (hf x2 hx2).1] at heq
    rw [h3 x1 hx1 x2 hx2 heq]
  · rw [hr]
    intro r1 hm1 r2 hm2 ho1 ho2 hbid
    obtain ⟨x1, hx1, rfl⟩ := List.mem_map.mp hm1
    obtain ⟨x2, hx2, rfl⟩ := List.mem_map.mp hm2
    rw [(hf x1 hx1).2.2] at ho1
    rw [(hf x2 hx2).2.2] at ho2
    rw [(hf x1 hx1).2.1, (hf x2 hx2).2.1] at hbid
    rw [h4 x1 hx1 x2 hx2 ho1 ho2 hbid]
  · unfold rentedIffOpen at h5 ⊢
    rw [hb, hr]
    intro b hm
    rw [h5 b hm]
    constructor
    · rintro ⟨r, hrm, hbid, hopen⟩
      exact ⟨f r, List.mem_map_of_mem f hrm,
        by rw [(hf r hrm).2.1]; exact hbid,
        by rw [(hf r hrm).2.2]; exact hopen⟩
    · rintro ⟨r', hm', hbid, hopen⟩
      obtain ⟨r, hrm, rfl⟩ := List.mem_map.mp hm'
      rw [(hf r hrm).2.1] at hbid
      rw [(hf r hrm).2.2] at hopen
      exact ⟨r, hrm, hbid, hopen⟩

theorem inv_emptySt : Inv emptySt := by
  unfold Inv rentedIffOpen emptySt
  simp

theorem inv_updateCredit (s : St) (cid : Nat) (h : Inv s) :
    Inv (updateCustomerCreditRating s cid) :=
  inv_of_eq h (updateCredit_batteries s cid) (updateCredit_rentals s cid)
    (by rw [updateCredit_nextId])

theorem inv_createCustomer (s : St) (n pn : String) (a : Option String)
    (h : Inv s) : Inv (createCustomer s n pn a).1 := by
  unfold createCustomer
  split_ifs with h1 h2
  · exact h
  · exact h
  · exact inv_of_eq h rfl rfl (Nat.le_succ _)

theorem inv_updateCustomer (s : St) (i : Nat) (n pn a : Option String)
    (cr : Option ℤ) (h : Inv s) : Inv (updateCustomer s i n pn a cr).1 := by
  unfold updateCustomer
  cases hfc : findCustomer s i with
  | none => exact h
  | some c =>
    dsimp only
    split_ifs with hdup
    · exact h
    · exact inv_of_eq h rfl rfl (le_refl _)

theorem inv_deleteCustomer (s : St) (i : Nat) (h : Inv s) :
    Inv (deleteCustomer s i).1 := by
  unfold deleteCustomer
  cases hfc : findCustomer s i with
  | none => exact h
  | some c =>
    dsimp only
    split_ifs with hhist
    · exact h
    · exact inv_of_eq h rfl rfl (le_refl _)

theorem inv_createPayment (s : St) (rid cid : Nat) (amt : ℚ) (pm : String)
    (now : ℤ) (h : Inv s) : Inv (createPayment s rid cid amt pm now).1 := by
  unfold createPayment
  split_ifs with hv
  · exact h
  · cases hfr : findRental s rid with
    | none => exact h
    | some r =>
      dsimp only
      cases hfc : findCustomer s cid with
      | none => exact h
      | some c =>
        dsimp only
        split_ifs with hmis hge
        · exact h
        · dsimp only
          apply inv_updateCredit
          refine inv_of_isPaidMap h rfl rfl (Nat.le_succ _) ?_
          intro x hxm
          by_cases hx : (x.id == rid) = true
          · simp [hx]
          · simp [hx]
        · dsimp only
          apply inv_updateCredit
          exact inv_of_eq h rfl rfl (Nat.le_succ _)

theorem inv_updateRentalPaymentStatus (s : St) (i : Nat) (ip : Option Bool)
    (h : Inv s) : Inv (updateRentalPaymentStatus s i ip).1 := by
  unfold updateRentalPaymentStatus
  cases ip with
  | none => exact h
  | some b =>
    dsimp only
    cases hfr : findRental s i with
    | none => exact h
    | some r =>
      dsimp only
      apply inv_updateCredit
      obtain ⟨hrm, hrid⟩ := findRental_mem hfr
      refine inv_of_isPaidMap h rfl rfl (le_refl _) ?_
      intro x hxm
      by_cases hx : (x.id == i) = true
      · have hxid : x.id = i := by simpa using hx
        have hxr : x = r := h.2.2.1 x hxm r hrm (by rw [hxid, hrid])
        rw [hxr]
        simp [hrid]
      · simp [hx]

theorem inv_createBattery (s : St) (sn : String) (p : ℚ) (h : Inv s) :
    Inv (createBattery s sn p).1 := by
  unfold createBattery
  split_ifs with h1 h2
  · exact h
  · exact h
  · obtain ⟨hb, hr, hid, huniq, hiff⟩ := h
    dsimp only
    refine ⟨?_, ?_, hid, huniq, ?_⟩
    · intro b' hm
      rcases List.mem_cons.mp hm with rfl | hm2
      · exact Nat.lt_succ_self _
      · exact Nat.lt_succ_of_lt (hb b' hm2)
    · intro r hm
      exact ⟨Nat.lt_succ_of_lt ((hr r hm).1), Nat.lt_succ_of_lt ((hr r hm).2)⟩
    · intro b' hm
      rcases List.mem_cons.mp hm with rfl | hm2
      · constructor
        · intro hst
          exact (Status.noConfusion hst)
        · rintro ⟨r, hrm, hbid, -⟩
          exact absurd hbid (Nat.ne_of_lt ((hr r hrm).2))
      · exact hiff b' hm2

theorem inv_updateBattery_noStatus (s : St) (i : Nat) (sn : Option String)
    (pr : Option ℚ) (h : Inv s) : Inv (updateBattery s i sn pr none).1 := by
  unfold updateBattery
  cases hfb : findBattery s i with
  | none => exact h
  | some b =>
    dsimp only
    split_ifs with hdup
    · exact h
    · obtain ⟨hbm, hbid⟩ := findBattery_mem hfb
      obtain ⟨hb, hr, hid, huniq, hiff⟩ := h
      refine ⟨?_, hr, hid, huniq, ?_⟩
      · intro b' hm
        obtain ⟨x, hxm, rfl⟩ := List.mem_map.mp hm
        by_cases hx : (x.id == i) = true
        · rw [if_pos hx]
          exact hb b hbm
        · rw [if_neg hx]
          exact hb x hxm
      · intro b' hm
        obtain ⟨x, hxm, rfl⟩ := List.mem_map.mp hm
        by_cases hx : (x.id == i) = true
        · rw [if_pos hx]
          exact hiff b hbm
        · rw [if_neg hx]
          exact hiff x hxm

theorem inv_deleteBattery (s : St) (i : Nat) (h : Inv s) :
    Inv (deleteBattery s i).1 := by
  unfold deleteBattery
  cases hfb : findBattery s i with
  | none => exact h
  | some b =>
    dsimp only
    split_ifs with hany
    · exact h
    · obtain ⟨hb, hr, hid, huniq, hiff⟩ := h
      refine ⟨?_, hr, hid, huniq, ?_⟩
      · intro b' hm
        exact hb b' (List.mem_of_mem_filter hm)
      · intro b' hm
        exact hiff b' (List.mem_of_mem_filter hm)

theorem inv_createRental (s : St) (bid cid : Nat) (price : ℚ) (ip : Option Bool)
    (now : ℤ) (h : Inv s) : Inv (createRental s bid cid price ip now).1 := by
  unfold createRental
  split_ifs with hv
  · exact h
  · cases hfb : findBattery s bid with
    | none => exact h
    | some b =>
      dsimp only
      split_ifs with hst
      · exact h
      · cases hfc : findCustomer s cid with
        | none => exact h
        | some c =>
          dsimp only
          obtain ⟨hbm, hbid⟩ := findBattery_mem hfb
          have hstA : b.status = Status.AVAILABLE := not_not.mp hst
          obtain ⟨hb, hr, hid, huniq, hiff⟩ := h
          have hbidlt : bid < s.nextId := by
            rw [← hbid]
            exact hb b hbm
          have hnoopen : ∀ r ∈ s.rentals, r.batteryId = bid → r.returnDate ≠ none := by
            intro r hrm hrb hropen
            have hrent : b.status = Status.RENTED :=
              (hiff b hbm).mpr ⟨r, hrm, by rw [hrb, hbid], hropen⟩
            rw [hstA] at hrent
            exact Status.noConfusion hrent
          refine ⟨?_, ?_, ?_, ?_, ?_⟩
          · intro b' hm
            obtain ⟨x, hxm, rfl⟩ := List.mem_map.mp hm
            by_cases hx : (x.id == bid) = true
            · rw [if_pos hx]
              exact Nat.lt_succ_of_lt (hb x hxm)
            · rw [if_neg hx]
              exact Nat.lt_succ_of_lt (hb x hxm)
          · intro r hm
            rcases List.mem_cons.mp hm with rfl | hm2
            · exact ⟨Nat.lt_succ_self _, Nat.lt_succ_of_lt hbidlt⟩
            · exact ⟨Nat.lt_succ_of_lt ((hr r hm2).1), Nat.lt_succ_of_lt ((hr r hm2).2)⟩
          · intro r1 hm1 r2 hm2 heq
            rcases List.mem_cons.mp hm1 with rfl | hm1b
            · rcases List.mem_cons.mp hm2 with rfl | hm2b
              · rfl
              · exact absurd heq.symm (Nat.ne_of_lt ((hr r2 hm2b).1))
            · rcases List.mem_cons.mp hm2 with rfl | hm2b
              · exact absurd heq (Nat.ne_of_lt ((hr r1 hm1b).1))
              · exact hid r1 hm1b r2 hm2b heq
          · intro r1 hm1 r2 hm2 ho1 ho2 hb12
            rcases List.mem_cons.mp hm1 with rfl | hm1b
            · rcases List.mem_cons.mp hm2 with rfl | hm2b
              · rfl
              · exact absurd ho2 (hnoopen r2 hm2b hb12.symm)
            · rcases List.mem_cons.mp hm2 with rfl | hm2b
              · exact absurd ho1 (hnoopen r1 hm1b hb12)
              · exact huniq r1 hm1b r2 hm2b ho1 ho2 hb12
          · intro b' hm
            obtain ⟨x, hxm, rfl⟩ := List.mem_map.mp hm
            by_cases hx : (x.id == bid) = true
            · rw [if_pos hx]
              have hxid : x.id = bid := by simpa using hx
              constructor
              · intro _
                exact ⟨⟨s.nextId, bid, cid, now, none, price, ip.getD false⟩,
                  List.mem_cons_self _ _, hxid.symm, rfl⟩
              · intro _
                rfl
            · rw [if_neg hx]
              have hxid : x.id ≠ bid := by simpa using hx
              rw [hiff x hxm]
              constructor
              · rintro ⟨r, hrm, hrb, hro⟩
                exact ⟨r, List.mem_cons_of_mem _ hrm, hrb, hro⟩
              · rintro ⟨r, hrm, hrb, hro⟩
                rcases List.mem_cons.mp hrm with rfl | hrm2
                · exact absurd hrb.symm hxid
                · exact ⟨r, hrm2, hrb, hro⟩

theorem inv_return_core (s : St) (r : Rental) (d : ℤ) (pa : Bool)
    (hrm : r ∈ s.rentals) (hropen : r.returnDate = none) (h : Inv s) :
    Inv { s with
      rentals := s.rentals.map (fun x => if x.id == r.id then
        { r with returnDate := some d, isPaid := pa } else x),
      batteries := s.batteries.map (fun b => if b.id == r.batteryId then
        { b with status := Status.AVAILABLE } else b) } := by
  obtain ⟨h1, h2, h3, h4, h5⟩ := h
  have hfid : ∀ x ∈ s.rentals,
      (if (x.id == r.id) = true then
        { r with returnDate := some d, isPaid := pa } else x).id = x.id := by
    intro x hxm
    by_cases hx : (x.id == r.id) = true
    · rw [if_pos hx]
      exact (by simpa using hx : x.id = r.id).symm
    · rw [if_neg hx]
  refine ⟨?_, ?_, ?_, ?_, ?_⟩
  · intro b' hm
    obtain ⟨x, hxm, rfl⟩ := List.mem_map.mp hm
    by_cases hxb : (x.id == r.batteryId) = true
    · rw [if_pos hxb]
      exact h1 x hxm
    · rw [if_neg hxb]
      exact h1 x hxm
  · intro r' hm
    obtain ⟨x, hxm, rfl⟩ := List.mem_map.mp hm
    by_cases hx : (x.id == r.id) = true
    · rw [if_pos hx]
      exact ⟨(h2 r hrm).1, (h2 r hrm).2⟩
    · rw [if_neg hx]
      exact h2 x hxm
  · intro r1' hm1 r2' hm2 heq
    obtain ⟨x1, hx1, rfl⟩ := List.mem_map.mp hm1
    obtain ⟨x2, hx2, rfl⟩ := List.mem_map.mp hm2
    rw [hfid x1 hx1, hfid x2 hx2] at heq
    rw [h3 x1 hx1 x2 hx2 heq]
  · intro r1' hm1 r2' hm2 ho1 ho2 hb12
    obtain ⟨x1, hx1, rfl⟩ := List.mem_map.mp hm1
    obtain ⟨x2, hx2, rfl⟩ := List.mem_map.mp hm2
    by_cases hz1 : (x1.id == r.id) = true
    · rw [if_pos hz1] at ho1
      exact Option.noConfusion ho1
    · by_cases hz2 : (x2.id == r.id) = true
      · rw [if_pos hz2] at ho2
        exact Option.noConfusion ho2
      · rw [if_neg hz1] at ho1 hb12 ⊢
        rw [if_neg hz2] at ho2 hb12 ⊢
        rw [h4 x1 hx1 x2 hx2 ho1 ho2 hb12]
  · intro b' hm
    obtain ⟨x, hxm, rfl⟩ := List.mem_map.mp hm
    by_cases hxb : (x.id == r.batteryId) = true
    · rw [if_pos hxb]
      have hxbid : x.id = r.batteryId := by simpa using hxb
      constructor
      · intro hst
        exact Status.noConfusion hst
      · rintro ⟨z', hzm', hzb, hzo⟩
        obtain ⟨z, hzm, rfl⟩ := List.mem_map.mp hzm'
        by_cases hz : (z.id == r.id) = true
        · rw [if_pos hz] at hzo
          exact Option.noConfusion hzo
        · rw [if_neg hz] at hzb hzo
          dsimp only at hzb
          have hzr : z = r := h4 z hzm r hrm hzo hropen (hzb.trans hxbid)
          exact absurd (by rw [hzr]; simp) hz
    · rw [if_neg hxb]
      have hxbid : x.id ≠ r.batteryId := by simpa using hxb
      rw [h5 x hxm]
      constructor
      · rintro ⟨z, hzm, hzb, hzo⟩
        have hzi : ¬ (z.id == r.id) = true := by
          intro hzi2
          have hzr : z = r := h3 z hzm r hrm (by simpa using hzi2)
          rw [hzr] at hzb
          exact hxbid hzb.symm
        exact ⟨z, List.mem_map.mpr ⟨z, hzm, if_neg hzi⟩, hzb, hzo⟩
      · rintro ⟨z', hzm', hzb, hzo⟩
        obtain ⟨z, hzm, rfl⟩ := List.mem_map.mp hzm'
        by_cases hz : (z.id == r.id) = true
        · rw [if_pos hz] at hzo
          exact Option.noConfusion hzo
        · rw [if_neg hz] at hzb hzo
          exact ⟨z, hzm, hzb, hzo⟩

theorem inv_returnBattery (s : St) (i : Nat) (rd : Option ℤ) (ip : Option Bool)
    (now : ℤ) (h : Inv s) : Inv (returnBattery s i rd ip now).1 := by
  unfold returnBattery
  cases hfr : findRental s i with
  | none => exact h
  | some r =>
    dsimp only
    split_ifs with hret hbat
    · exact h
    · exact h
    · obtain ⟨hrm, hrid⟩ := findRental_mem hfr
      have hropen : r.returnDate = none := Option.not_isSome_iff_eq_none.mp hret
      apply inv_updateCredit
      rw [← hrid]
      exact inv_return_core s r (rd.getD now) (ip.getD r.isPaid) hrm hropen h

theorem inv_reachSafe {s : St} (h : ReachSafe s) : Inv s := by
  induction h with
  | init => exact inv_emptySt
  | createBatteryStep s sn p _ ih => exact inv_createBattery s sn p ih
  | updateBatteryStep s i sn p _ ih => exact inv_updateBattery_noStatus s i sn p ih
  | deleteBatteryStep s i _ ih => exact inv_deleteBattery s i ih
  | createCustomerStep s n pn a _ ih => exact inv_createCustomer s n pn a ih
  | updateCustomerStep s i n pn a cr _ ih => exact inv_updateCustomer s i n pn a cr ih
  | deleteCustomerStep s i _ ih => exact inv_deleteCustomer s i ih
  | createRentalStep s bid cid price ip now _ ih =>
      exact inv_createRental s bid cid price ip now ih
  | returnBatteryStep s i rd ip now _ ih => exact inv_returnBattery s i rd ip now ih
  | updateRentalPaymentStep s i ip _ ih => exact inv_updateRentalPaymentStatus s i ip ih
  | createPaymentStep s rid cid amt pm now _ ih =>
      exact inv_createPayment s rid cid amt pm now ih

/-- Claim C2 counterexample: the claim quantifies over every exposed
operation, including the battery update; from the empty database,
adding a battery and then calling the battery update with status RENTED
reaches a state with a RENTED battery and no rental at all, so the
RENTED-iff-open-rental invariant fails. -/
theorem battery_rentedIff_counterexample :
    Reach c2bad2 ∧ ¬ rentedIffOpen c2bad2 := by
  refine ⟨?_, by decide⟩
  exact Reach.updateBatteryStep c2bad1 1 none none (some Status.RENTED)
    (Reach.createBatteryStep emptySt "SN" 10 Reach.init)

/-- Claim C2 as amended: in every state reachable by the exposed
operations except battery updates that carry a status field, a battery
has status RENTED exactly when a rental referencing it has returnDate
null. The direct status write in the battery update route is the single
exception the counterexample forces. -/
theorem battery_rentedIff_of_reachSafe (s : St) (h : ReachSafe s) :
    rentedIffOpen s :=
  (inv_reachSafe h).2.2.2.2

theorem battery_rentedIff_of_reachSafe_witness :
    ReachSafe c2w3 ∧ rentedIffOpen c2w3 := by
  have hreach : ReachSafe c2w3 :=
    ReachSafe.createRentalStep c2w2 1 2 10 none 0
      (ReachSafe.createCustomerStep c2bad1 "A" "p" none
        (ReachSafe.createBatteryStep emptySt "SN" 10 ReachSafe.init))
  exact ⟨hreach, battery_rentedIff_of_reachSafe c2w3 hreach⟩

end BatteryMgmt
